import Mathlib

/-!
Verification of the magic-sql-gen table model and fake-entry generator.

The definitions below are a shallow embedding of the Rust sources
`src/magicdraw_parser/mod.rs`, `src/magicdraw_parser/uml_model_parser.rs`,
`src/magicdraw_parser/sql_types_parser.rs` and `src/generate_sql.rs`.
Rust `String` is modelled by Lean `String` (lengths counted in characters),
`Vec` by `List`, `Option` by `Option`, `anyhow::Result` by `Except String`,
and panics (`expect` / `unwrap`) by `Except`/`Option` failure values.
Randomness (`rand::thread_rng`) is modelled by explicit oracle parameters.
-/

/-! ## Data model (`magicdraw_parser/mod.rs`) -/

/-- `SQLType` from `mod.rs`.  Rust stores the sizes as `u8` (char) and
`u16` (varchar); they are modelled as `Nat` here, with the bounds enforced
at the single place they are produced (`get_sql_type`). -/
inductive SQLType where
  | Int
  | Decimal
  | Date
  | Time
  | Datetime
  | Float
  | Bool
  | Char (size : Nat)
  | Varchar (size : Nat)
deriving DecidableEq, Repr

/-- `SQLCheckConstraint` from `mod.rs`. -/
inductive SQLCheckConstraint where
  | OneOf (options : List String)
  | Freeform (body : String)
deriving DecidableEq, Repr

/-- `SQLColumn` from `mod.rs`. -/
structure SQLColumn where
  name : String
  sql_type : SQLType
  primary_key : Bool
  nullable : Bool
  foreign_key : Option (String × String)
  check_constraint : Option SQLCheckConstraint
deriving DecidableEq, Repr

/-- `SQLTable` from `mod.rs`. -/
structure SQLTable where
  name : String
  columns : List SQLColumn
deriving DecidableEq, Repr

/-- `SQLTableCollection` from `mod.rs`. -/
structure SQLTableCollection where
  tables : List SQLTable
deriving DecidableEq, Repr

/-! ## UML structures (`uml_model_parser.rs`) -/

/-- `UMLProperty` from `uml_model_parser.rs`. -/
structure UMLProperty where
  id : String
  name : Option String
  is_id : Bool
  type_href : Option String
deriving DecidableEq, Repr

/-- `UMLConstraint` from `uml_model_parser.rs`. -/
structure UMLConstraint where
  id : String
  class_id : Option String
  property_id : Option String
  property_name : Option String
  body : Option String
deriving DecidableEq, Repr

/-- `UMLClass` from `uml_model_parser.rs` (the source spells the field
`classess` on packages; kept as in the source). -/
structure UMLClass where
  id : String
  name : Option String
  properties : List UMLProperty
  constraints : List UMLConstraint
deriving DecidableEq, Repr

/-- `UMLPackage` from `uml_model_parser.rs`. -/
structure UMLPackage where
  id : String
  name : Option String
  classess : List UMLClass
deriving DecidableEq, Repr

/-- `UMLModel` from `uml_model_parser.rs`. -/
structure UMLModel where
  id : String
  name : String
  packages : List UMLPackage
deriving DecidableEq, Repr

/-- `UMLPrimaryKeyModifier` from `uml_model_parser.rs`. -/
structure UMLPrimaryKeyModifier where
  property_id : String
deriving DecidableEq, Repr

/-- `UMLNullableModifier` from `uml_model_parser.rs`. -/
structure UMLNullableModifier where
  property_id : String
  nullable : Bool
deriving DecidableEq, Repr

/-- `UMLForeignKeyModifier` from `uml_model_parser.rs`. -/
structure UMLForeignKeyModifier where
  from_property_id : String
  to_property_id : String
deriving DecidableEq, Repr

/-- `UMLUniqueModifier` from `uml_model_parser.rs`. -/
structure UMLUniqueModifier where
  property_id : String
deriving DecidableEq, Repr

/-- `UMLTypeModifier` from `uml_model_parser.rs`. -/
structure UMLTypeModifier where
  property_id : String
  modifier : String
deriving DecidableEq, Repr

/-- `UMLModifier` from `uml_model_parser.rs` (the source spells the
primary-key variant `PirmaryKey`; kept as in the source). -/
inductive UMLModifier where
  | Unique (m : UMLUniqueModifier)
  | PirmaryKey (m : UMLPrimaryKeyModifier)
  | Nullable (m : UMLNullableModifier)
  | ForeignKey (m : UMLForeignKeyModifier)
  | Type (m : UMLTypeModifier)
deriving DecidableEq, Repr

/-- `SQLTypeName` from `sql_types_parser.rs`, extended with the `Time` and
`Datetime` names that the `get_sql_type` match in `mod.rs` consumes. -/
inductive SQLTypeName where
  | Int
  | Decimal
  | Date
  | Time
  | Datetime
  | Float
  | Bool
  | Char
  | Varchar
deriving DecidableEq, Repr

/-! ## Check-constraint parsing (`parse_check_constraint`, `mod.rs` 174-187)

The Rust function uses two regexes, `^in \((.+)\)$` over the whole body and
`^'(.+)'$` over each `", "`-separated piece.  In the Rust regex crate `.`
matches any character except a newline and `^`/`$` anchor at the ends of the
haystack, so each capture is a non-empty newline-free run of characters.
The regexes and `str::split(", ")` are embedded below over `List Char`. -/

/-- True when no character of the list is a newline (the characters `.` can
match in a default-mode Rust regex). -/
def noNewline (cs : List Char) : Bool :=
  cs.all (fun c => c ≠ '\n')

/-- Capture of `^in \((.+)\)$`: the whole string is `in (` ++ inner ++ `)`
with `inner` non-empty and newline-free. -/
def outerCapture : List Char → Option (List Char)
  | 'i' :: 'n' :: ' ' :: '(' :: rest =>
    match rest.getLast? with
    | some ')' =>
      if !rest.dropLast.isEmpty && noNewline rest.dropLast then some rest.dropLast
      else none
    | _ => none
  | _ => none

/-- Capture of `^'(.+)'$`: the whole string is a single-quoted non-empty
newline-free run of characters. -/
def partCapture : List Char → Option (List Char)
  | '\'' :: rest =>
    match rest.getLast? with
    | some '\'' =>
      if !rest.dropLast.isEmpty && noNewline rest.dropLast then some rest.dropLast
      else none
    | _ => none
  | _ => none

/-- Embedding of Rust `str::split(", ")`: split at each leftmost,
non-overlapping occurrence of comma-space. -/
def splitCommaSpace : List Char → List (List Char)
  | [] => [[]]
  | ',' :: ' ' :: rest => [] :: splitCommaSpace rest
  | c :: rest =>
    match splitCommaSpace rest with
    | [] => [[c]]
    | p :: ps => (c :: p) :: ps

/-- The inner helper `try_parse_one_of` of `parse_check_constraint`
(`mod.rs` 175-184). -/
def try_parse_one_of (s : String) : Option SQLCheckConstraint :=
  match outerCapture s.toList with
  | none => none
  | some inner =>
    match (splitCommaSpace inner).mapM
        (fun part => (partCapture part).map (fun cs => String.mk cs)) with
    | none => none
    | some variants => some (SQLCheckConstraint.OneOf variants)

/-- `parse_check_constraint` (`mod.rs` 174-187): the one-of parse, with
`Freeform` of the unchanged input as the fallback. -/
def parse_check_constraint (s : String) : SQLCheckConstraint :=
  (try_parse_one_of s).getD (SQLCheckConstraint.Freeform s)

/-! ## Check-constraint lookup (`get_sql_check_constraint`, `mod.rs` 190-209) -/

/-- First `some` produced by `f` over a list: the shape of a Rust
`for`-loop whose body may `return Some(..)` or `continue`. -/
def firstSome (f : α → Option β) : List α → Option β
  | [] => none
  | x :: xs =>
    match f x with
    | some b => some b
    | none => firstSome f xs

/-- Body of the innermost loop of `get_sql_check_constraint`: a constraint
matches when its `property_name` and `body` are both present
(`unwrap_opt_continue!`) and the name equals the searched property name. -/
def constraintHit (property_name : String) (c : UMLConstraint) :
    Option SQLCheckConstraint :=
  match c.property_name, c.body with
  | some prop_name, some body =>
    if prop_name = property_name then some (parse_check_constraint body) else none
  | _, _ => none

/-- `get_sql_check_constraint` (`mod.rs` 190-209): four nested loops over
models, packages, classes and constraints, returning at the first hit. -/
def get_sql_check_constraint (models : List UMLModel) (property_name : String) :
    Option SQLCheckConstraint :=
  firstSome (fun model =>
    firstSome (fun package =>
      firstSome (fun cls =>
        firstSome (constraintHit property_name) cls.constraints)
        package.classess)
      model.packages)
    models

/-! ## Modifier lookups and `get_sql_type` (`mod.rs` 94-148, 211-247) -/

/-- `get_type_modifier` (`mod.rs` 120-133): first `Type` modifier fact whose
`property_id` equals the property. -/
def get_type_modifier (modifiers : List UMLModifier) (property : String) :
    Option String :=
  firstSome (fun m =>
    match m with
    | UMLModifier.Type tm => if tm.property_id = property then some tm.modifier else none
    | _ => none) modifiers

/-- `is_primary_key` (`mod.rs` 109-118). -/
def is_primary_key (modifiers : List UMLModifier) (property : String) : Bool :=
  modifiers.any (fun m =>
    match m with
    | UMLModifier.PirmaryKey pk => pk.property_id == property
    | _ => false)

/-- `is_nullabe` (`mod.rs` 94-107; name as in the source): value of the
first `Nullable` fact for the property, `false` when none exists. -/
def is_nullabe (modifiers : List UMLModifier) (property : String) : Bool :=
  (firstSome (fun m =>
    match m with
    | UMLModifier.Nullable nm => if nm.property_id = property then some nm.nullable else none
    | _ => none) modifiers).getD false

/-- Failure values of `get_sql_type`: the `context` message attached when
the type-size text does not match `^\((\d+)\)$`, and the `ParseIntError`
propagated when the digits overflow the `u8`/`u16` size field. -/
inductive SQLTypeError where
  | modifierFormat
  | sizeParse
deriving DecidableEq, Repr

/-- Numeric value of a digit run (the capture of `(\d+)`). -/
def digitsVal (cs : List Char) : Nat :=
  cs.foldl (fun acc c => acc * 10 + (c.toNat - '0'.toNat)) 0

/-- Capture of `^\((\d+)\)$` over the type-size modifier text: the whole
string is `(` ++ digits ++ `)` with at least one digit. -/
def sizeCapture : List Char → Option (List Char)
  | '(' :: rest =>
    match rest.getLast? with
    | some ')' =>
      if !rest.dropLast.isEmpty && rest.dropLast.all Char.isDigit then some rest.dropLast
      else none
    | _ => none
  | _ => none

/-- Size-modifier parse shared by the `Char` and `Varchar` arms of
`get_sql_type`: regex capture, then `str::parse` into an integer bounded by
`bound` (`u8::MAX` for char, `u16::MAX` for varchar; overflow is a
`ParseIntError`). -/
def parseSizeModifier (type_modifier : String) (bound : Nat) :
    Except SQLTypeError Nat :=
  match sizeCapture type_modifier.toList with
  | none => Except.error SQLTypeError.modifierFormat
  | some digits =>
    let v := digitsVal digits
    if v ≤ bound then Except.ok v else Except.error SQLTypeError.sizeParse

/-- `get_sql_type` (`mod.rs` 211-247).  For `Char`/`Varchar`: when a
type-size modifier fact exists its text must parse as `(<digits>)` (else the
call fails); when no fact exists the fixed defaults `Char(31)` /
`Varchar(255)` are used. -/
def get_sql_type (modifiers : List UMLModifier) (type_name : SQLTypeName)
    (property : String) : Except SQLTypeError SQLType :=
  match type_name with
  | SQLTypeName.Int => Except.ok SQLType.Int
  | SQLTypeName.Date => Except.ok SQLType.Date
  | SQLTypeName.Datetime => Except.ok SQLType.Datetime
  | SQLTypeName.Time => Except.ok SQLType.Time
  | SQLTypeName.Float => Except.ok SQLType.Float
  | SQLTypeName.Bool => Except.ok SQLType.Bool
  | SQLTypeName.Decimal => Except.ok SQLType.Decimal
  | SQLTypeName.Char =>
    match get_type_modifier modifiers property with
    | some type_modifier =>
      (parseSizeModifier type_modifier 255).map (fun size => SQLType.Char size)
    | none => Except.ok (SQLType.Char 31)
  | SQLTypeName.Varchar =>
    match get_type_modifier modifiers property with
    | some type_modifier =>
      (parseSizeModifier type_modifier 65535).map (fun size => SQLType.Varchar size)
    | none => Except.ok (SQLType.Varchar 255)


/-! ## Value-guess types (`generate_sql.rs` 12-56) -/

/-- `SQLIntValueGuess` from `generate_sql.rs`. -/
inductive SQLIntValueGuess where
  | Range (min max : Int)
  | AutoIncrement
deriving DecidableEq, Repr

/-- `SQLTimeValueGuess` from `generate_sql.rs`. -/
inductive SQLTimeValueGuess where
  | Now
  | Future
  | Past
deriving DecidableEq, Repr

/-- `SQLStringValueGuess` from `generate_sql.rs`. -/
inductive SQLStringValueGuess where
  | LoremIpsum
  | FirstName
  | LastName
  | FullName
  | Empty
  | PhoneNumber
  | CityName
  | Address
  | Email
  | URL
  | RandomEnum (options : List String)
deriving DecidableEq, Repr

/-- `SQLBoolValueGuess` from `generate_sql.rs`. -/
inductive SQLBoolValueGuess where
  | True
  | False
  | Random
deriving DecidableEq, Repr

/-- `SQLValueGuess` from `generate_sql.rs` (float bounds kept abstract as a
pair of rationals is unnecessary here; the claims touch only the `Int` and
`String` variants, the others are carried structurally). -/
inductive SQLValueGuess where
  | Int (g : SQLIntValueGuess)
  | Date (g : SQLTimeValueGuess)
  | Time (g : SQLTimeValueGuess)
  | Datetime (g : SQLTimeValueGuess)
  | Float (min max : Int)
  | Bool (g : SQLBoolValueGuess)
  | String (max_size : Nat) (g : SQLStringValueGuess)
deriving DecidableEq, Repr

/-! ## Default guesses (`generate_string_guess` / `generate_guess`,
`generate_sql.rs` 284-359) -/

/-- Embedding of Rust `str::contains` on the lowercased column name:
`needle` occurs as a contiguous substring. -/
def containsSub (hay needle : String) : Bool :=
  decide (needle.toList <:+: hay.toList)

/-- Embedding of Rust `str::to_lowercase` (ASCII view; the column names the
generator consults are plain identifiers). -/
def lowercase (s : String) : String :=
  String.mk (s.toList.map Char.toLower)

/-- `generate_string_guess` (`generate_sql.rs` 284-311). -/
def generate_string_guess (column : SQLColumn) : SQLStringValueGuess :=
  match column.check_constraint with
  | some (SQLCheckConstraint.OneOf options) => SQLStringValueGuess.RandomEnum options
  | some _ => SQLStringValueGuess.LoremIpsum
  | none =>
    let name := lowercase column.name
    if containsSub name "first" && containsSub name "name" then
      SQLStringValueGuess.FirstName
    else if (containsSub name "last" && containsSub name "name") || containsSub name "surname" then
      SQLStringValueGuess.LastName
    else if containsSub name "phone" && containsSub name "number" then
      SQLStringValueGuess.PhoneNumber
    else if containsSub name "city" then
      SQLStringValueGuess.CityName
    else if containsSub name "address" then
      SQLStringValueGuess.Address
    else if containsSub name "email" then
      SQLStringValueGuess.Email
    else if containsSub name "homepage" || containsSub name "website" || containsSub name "url" then
      SQLStringValueGuess.URL
    else
      SQLStringValueGuess.LoremIpsum

/-- `generate_guess` (`generate_sql.rs` 313-359). -/
def generate_guess (column : SQLColumn) : SQLValueGuess :=
  match column.sql_type with
  | SQLType.Int =>
    if column.primary_key then
      SQLValueGuess.Int SQLIntValueGuess.AutoIncrement
    else
      SQLValueGuess.Int (SQLIntValueGuess.Range 0 100)
  | SQLType.Float => SQLValueGuess.Float 0 100
  | SQLType.Decimal => SQLValueGuess.Float 0 100
  | SQLType.Date =>
    let name := lowercase column.name
    if containsSub name "create" || containsSub name "update" then
      SQLValueGuess.Date SQLTimeValueGuess.Past
    else
      SQLValueGuess.Date SQLTimeValueGuess.Now
  | SQLType.Time =>
    let name := lowercase column.name
    if containsSub name "create" || containsSub name "update" then
      SQLValueGuess.Time SQLTimeValueGuess.Past
    else
      SQLValueGuess.Time SQLTimeValueGuess.Now
  | SQLType.Datetime =>
    let name := lowercase column.name
    if containsSub name "create" || containsSub name "update" then
      SQLValueGuess.Datetime SQLTimeValueGuess.Past
    else
      SQLValueGuess.Datetime SQLTimeValueGuess.Now
  | SQLType.Bool => SQLValueGuess.Bool SQLBoolValueGuess.Random
  | SQLType.Varchar max_size => SQLValueGuess.String max_size (generate_string_guess column)
  | SQLType.Char max_size => SQLValueGuess.String max_size (generate_string_guess column)

/-- `generate_table_guessess` (`generate_sql.rs` 361-365; name as in the
source). -/
def generate_table_guessess (table : SQLTable) : List SQLValueGuess :=
  table.columns.map generate_guess

/-! ## String value synthesis (`generate_value`, `generate_sql.rs` 226-280)

The `fake` crate's random text sources (`Words`, `FirstName`, ...) and the
random choice made by `SliceRandom::choose` are modelled by an explicit
oracle record; everything after the random draw is embedded from the
source. -/

/-- Oracle standing for the `fake`-crate faker outputs and the random index
drawn by `choose` inside one `generate_value` call. -/
structure FakeOracle where
  loremWords : List String
  firstName : String
  lastName : String
  fullName : String
  phoneNumber : String
  cityName : String
  streetName : String
  freeEmail : String
  domainSuffix : String
  bsNoun : String
  choiceIdx : Nat
deriving Repr

/-- Embedding of Rust `String::truncate`: keep the first `n` characters. -/
def truncate (s : String) (n : Nat) : String :=
  String.mk (s.toList.take n)

/-- The lorem-ipsum accumulation loop of `generate_value`
(`generate_sql.rs` 230-237): every word is pushed, and the loop stops after
the word that moves the running `len + 1` tally past `max_size`. -/
def loremTake (max_size : Nat) : List String → Nat → List String
  | [], _ => []
  | w :: ws, current_len =>
    let cl := current_len + w.length + 1
    if cl > max_size then [w] else w :: loremTake max_size ws cl

/-- The word-sanitising step of the `URL` arm (`generate_sql.rs` 262-267):
lowercase the noun and replace whitespace by dashes. -/
def sanitizeNoun (noun : String) : String :=
  String.mk ((lowercase noun).toList.map (fun c => if c.isWhitespace then '-' else c))

/-- Raw string produced by the `match` of the `String` arm of
`generate_value` (`generate_sql.rs` 227-276), before truncation.  The
`RandomEnum` arm calls `choose(..).unwrap()`, which panics on an empty
option list; that panic is the `none` value here. -/
def rawStringValue (o : FakeOracle) (max_size : Nat) :
    SQLStringValueGuess → Option String
  | SQLStringValueGuess.LoremIpsum =>
    some (" ".intercalate (loremTake max_size o.loremWords 0))
  | SQLStringValueGuess.FirstName => some o.firstName
  | SQLStringValueGuess.LastName => some o.lastName
  | SQLStringValueGuess.FullName => some o.fullName
  | SQLStringValueGuess.PhoneNumber => some o.phoneNumber
  | SQLStringValueGuess.CityName => some o.cityName
  | SQLStringValueGuess.Address => some o.streetName
  | SQLStringValueGuess.Email => some o.freeEmail
  | SQLStringValueGuess.URL =>
    some ("www." ++ sanitizeNoun o.bsNoun ++ "." ++ o.domainSuffix)
  | SQLStringValueGuess.RandomEnum options =>
    if options.isEmpty then none
    else some (options.getD (o.choiceIdx % options.length) "")
  | SQLStringValueGuess.Empty => some ""

/-- The `SQLValueGuess::String(max_size, string_guess)` arm of
`generate_value` (`generate_sql.rs` 226-280): generate the raw string, then
`str.truncate(max_size)` and wrap the result in single quotes. -/
def generate_value_string (o : FakeOracle) (max_size : Nat)
    (string_guess : SQLStringValueGuess) : Option String :=
  (rawStringValue o max_size string_guess).map
    (fun str => "'" ++ truncate str max_size ++ "'")

/-! ## Foreign-key setup and fixed-point resolution
(`generate_fake_entries`, `generate_sql.rs` 59-151)

The entry matrix `all_entries[table][row][column]` is a `List (List (List
String))`; the pending `HashSet<(usize, usize)>` is a duplicate-free list of
coordinates whose order stands for the (unspecified) set-iteration order,
so loop theorems hold for every order and concrete evaluations spell the
orders out.  The random generator is an explicit stream `pick : Nat → Nat`
consumed one draw per `choose` call (`choose` picks index `pick k % len`). -/

/-- The entry matrix `all_entries`. -/
abbrev Entries := List (List (List String))

/-- One (table-index, row-index) member of `entries_with_foreign_keys`. -/
abbrev Coord := Nat × Nat

/-- `all_foreign_columns`: per table, the `(column_idx, foreign_table_idx,
foreign_column_idx)` triples of its foreign-key columns. -/
abbrev ForeignCols := List (List (Nat × Nat × Nat))

/-- Embedding of `iter().enumerate().find(p)`: the first element satisfying
`p`, with its index. -/
def findIdxBy (p : α → Bool) : List α → Option (Nat × α)
  | [] => none
  | x :: xs =>
    if p x then some (0, x)
    else (findIdxBy p xs).map (fun q => (q.1 + 1, q.2))

/-- The foreign-column scan for one table (`generate_sql.rs` 77-91):
for each column carrying a `foreign_key`, locate the target table by name
(`expect("Foreign table not found")`) and the target column by name
(`expect("Foreign column not found")`); the two `expect` panics are the
`Except.error` values. -/
def foreignColumnsOf (tables : List SQLTable) :
    List SQLColumn → Nat → Except String (List (Nat × Nat × Nat))
  | [], _ => Except.ok []
  | column :: rest, i =>
    match column.foreign_key with
    | none => foreignColumnsOf tables rest (i + 1)
    | some (table_name, column_name) =>
      match findIdxBy (fun tb => tb.name == table_name) tables with
      | none => Except.error "Foreign table not found"
      | some (table_idx, ftable) =>
        match findIdxBy (fun col => col.name == column_name) ftable.columns with
        | none => Except.error "Foreign column not found"
        | some (column_idx, _) =>
          (foreignColumnsOf tables rest (i + 1)).map
            (fun fcs => (i, table_idx, column_idx) :: fcs)

/-- `all_foreign_columns` construction (`generate_sql.rs` 68-93). -/
def build_foreign_columns (tables : List SQLTable) : Except String ForeignCols :=
  tables.mapM (fun table => foreignColumnsOf tables table.columns 0)

/-- Cell write `all_entries[t][r][c] = v` (in-bounds in every reachable
state; out-of-bounds writes are dropped as `List.set` is). -/
def setCell (entries : Entries) (t r c : Nat) (v : String) : Entries :=
  entries.set t ((entries.getD t []).set r (((entries.getD t []).getD r []).set c v))

/-- Cell read `all_entries[t][r][c]`. -/
def getCell (entries : Entries) (t r c : Nat) : String :=
  ((entries.getD t []).getD r []).getD c ""

/-- Embedding of `iter().enumerate()` starting at `i`. -/
def enumIdx (i : Nat) : List α → List (Nat × α)
  | [] => []
  | x :: xs => (i, x) :: enumIdx (i + 1) xs

/-- `HashSet::contains` on the pending-coordinate set. -/
def memCoord (c : Coord) (l : List Coord) : Bool :=
  l.any (fun q => q.1 == c.1 && q.2 == c.2)

/-- The `available_values` pool of one foreign-key column
(`generate_sql.rs` 119-133): when the target column is itself a foreign-key
column of its own table, the rows of the target table are filtered by
membership in the cloned pending set `entries_with_foreign_keys_copy`;
otherwise every row's value in the target column is taken. -/
def availableValues (afc : ForeignCols) (copy : List Coord) (entries : Entries)
    (ftIdx fcIdx : Nat) : List String :=
  if (afc.getD ftIdx []).any (fun fcol => fcol.1 == fcIdx) then
    ((enumIdx 0 (entries.getD ftIdx [])).filter
      (fun p => memCoord (ftIdx, p.1) copy)).map (fun p => p.2.getD fcIdx "")
  else
    (entries.getD ftIdx []).map (fun entry => entry.getD fcIdx "")

/-- Modelled from the spec (section 4.7 / claim C1), for comparison with
`availableValues`: the candidate pool "is restricted to rows of the target
table that are NOT currently pending (i.e., already resolved)". -/
def specAvailableValues (afc : ForeignCols) (copy : List Coord) (entries : Entries)
    (ftIdx fcIdx : Nat) : List String :=
  if (afc.getD ftIdx []).any (fun fcol => fcol.1 == fcIdx) then
    ((enumIdx 0 (entries.getD ftIdx [])).filter
      (fun p => !(memCoord (ftIdx, p.1) copy))).map (fun p => p.2.getD fcIdx "")
  else
    (entries.getD ftIdx []).map (fun entry => entry.getD fcIdx "")

/-- The per-row loop over a pending row's foreign-key columns
(`generate_sql.rs` 118-144), threading the entry matrix and the draw
counter; the `Bool` is the value `retain` receives (`true` keeps the row
pending: some pool was empty and the loop returned early, keeping the
assignments already made). -/
def processCols (afc : ForeignCols) (copy : List Coord) (pick : Nat → Nat)
    (t r : Nat) : List (Nat × Nat × Nat) → Entries → Nat → Entries × Nat × Bool
  | [], entries, k => (entries, k, false)
  | (column_idx, ftIdx, fcIdx) :: rest, entries, k =>
    let avail := availableValues afc copy entries ftIdx fcIdx
    if avail.isEmpty then (entries, k, true)
    else
      processCols afc copy pick t r rest
        (setCell entries t r column_idx (avail.getD (pick k % avail.length) ""))
        (k + 1)

/-- One `retain` pass over the pending set (`generate_sql.rs` 117-145):
rows are processed in the given iteration order against the pass-start
snapshot `copy`, and the rows whose closure returned `true` survive in
order. -/
def runPass (afc : ForeignCols) (copy : List Coord) (pick : Nat → Nat) :
    List Coord → Entries → Nat → Entries × Nat × List Coord
  | [], entries, k => (entries, k, [])
  | (t, r) :: rest, entries, k =>
    match processCols afc copy pick t r (afc.getD t []) entries k with
    | (e1, k1, keep) =>
      match runPass afc copy pick rest e1 k1 with
      | (e2, k2, kept) => (e2, k2, if keep then (t, r) :: kept else kept)

/-- The fixed-point loop (`generate_sql.rs` 113-151), with an explicit fuel
so that the definition is structurally recursive: `none` stands for fuel
running out (shown below to be unreachable with `pending.length + 1` fuel),
`some (Except.error ..)` is the `bail!` taken when a pass removes nothing,
and `some (Except.ok ..)` is normal completion. -/
def resolveLoop (afc : ForeignCols) (pick : Nat → Nat) :
    Nat → Entries → List Coord → Nat → Option (Except String Entries)
  | 0, _, _, _ => none
  | fuel + 1, entries, pending, k =>
    if pending.isEmpty then some (Except.ok entries)
    else
      match runPass afc pending pick pending entries k with
      | (e1, k1, pending1) =>
        if pending1.length == pending.length then
          some (Except.error "Failed to resolve foreign keys")
        else
          resolveLoop afc pick fuel e1 pending1 k1

/-- The fixed-point loop run with enough fuel for every input. -/
def resolveForeignKeys (afc : ForeignCols) (pick : Nat → Nat)
    (entries : Entries) (pending : List Coord) : Option (Except String Entries) :=
  resolveLoop afc pick (pending.length + 1) entries pending 0

/-- The non-foreign-key fill of the entry matrix (`generate_sql.rs`
96-111): a foreign-key cell starts blank, every other cell takes the value
generated for its `(table, column, row)` (the oracle `genVal` stands for
`generate_value` with the run's random source and counters). -/
def initEntries (tables : List SQLTable) (genVal : Nat → Nat → Nat → String)
    (rows_per_table : Nat) : Entries :=
  (enumIdx 0 tables).map (fun tp =>
    (List.range rows_per_table).map (fun r =>
      (enumIdx 0 tp.2.columns).map (fun cp =>
        if cp.2.foreign_key.isSome then "" else genVal tp.1 cp.1 r)))

/-- Content of `entries_with_foreign_keys` after the fill
(`generate_sql.rs` 95-111): every row of every table owning at least one
foreign-key column, here in table-major order. -/
def initPending (tables : List SQLTable) (rows_per_table : Nat) : List Coord :=
  (enumIdx 0 tables).flatMap (fun tp =>
    if tp.2.columns.any (fun column => column.foreign_key.isSome) then
      (List.range rows_per_table).map (fun r => (tp.1, r))
    else [])

/-! ## Persisted form of `SQLTableCollection` (claim C8)

Modelled from the spec: the app stores the collection through
`gloo::storage::LocalStorage` with the serde `Serialize`/`Deserialize`
derives declared in `mod.rs` (a self-describing JSON document; the spec
fixes no byte format).  The derived layout is embedded below: structs as
objects in field order, unit enum variants as their name string, one-field
variants as a single-entry object, `Option` as `null`/value, and the
`(String, String)` pair as a two-element array. -/

/-- JSON values (the image of the serde derives; numbers only ever carry
the `Char`/`Varchar` sizes, so `Nat` suffices). -/
inductive Json where
  | null
  | str (s : String)
  | num (n : Nat)
  | bool (b : Bool)
  | arr (items : List Json)
  | obj (fields : List (String × Json))

/-- Serialization of `SQLType`. -/
def encodeType : SQLType → Json
  | SQLType.Int => Json.str "Int"
  | SQLType.Decimal => Json.str "Decimal"
  | SQLType.Date => Json.str "Date"
  | SQLType.Time => Json.str "Time"
  | SQLType.Datetime => Json.str "Datetime"
  | SQLType.Float => Json.str "Float"
  | SQLType.Bool => Json.str "Bool"
  | SQLType.Char size => Json.obj [("Char", Json.num size)]
  | SQLType.Varchar size => Json.obj [("Varchar", Json.num size)]

/-- Deserialization of `SQLType`. -/
def decodeType : Json → Option SQLType
  | Json.str "Int" => some SQLType.Int
  | Json.str "Decimal" => some SQLType.Decimal
  | Json.str "Date" => some SQLType.Date
  | Json.str "Time" => some SQLType.Time
  | Json.str "Datetime" => some SQLType.Datetime
  | Json.str "Float" => some SQLType.Float
  | Json.str "Bool" => some SQLType.Bool
  | Json.obj [("Char", Json.num size)] => some (SQLType.Char size)
  | Json.obj [("Varchar", Json.num size)] => some (SQLType.Varchar size)
  | _ => none

/-- Deserialization of one element of a `OneOf` option list. -/
def decodeStr : Json → Option String
  | Json.str s => some s
  | _ => none

/-- Serialization of `SQLCheckConstraint`. -/
def encodeConstraint : SQLCheckConstraint → Json
  | SQLCheckConstraint.OneOf options =>
    Json.obj [("OneOf", Json.arr (options.map Json.str))]
  | SQLCheckConstraint.Freeform body => Json.obj [("Freeform", Json.str body)]

/-- Deserialization of `SQLCheckConstraint`. -/
def decodeConstraint : Json → Option SQLCheckConstraint
  | Json.obj [("OneOf", Json.arr items)] =>
    (items.mapM decodeStr).map SQLCheckConstraint.OneOf
  | Json.obj [("Freeform", Json.str body)] =>
    some (SQLCheckConstraint.Freeform body)
  | _ => none

/-- Serialization of `SQLColumn` (fields in declaration order). -/
def encodeColumn (c : SQLColumn) : Json :=
  Json.obj
    [ ("name", Json.str c.name),
      ("sql_type", encodeType c.sql_type),
      ("primary_key", Json.bool c.primary_key),
      ("nullable", Json.bool c.nullable),
      ("foreign_key",
        match c.foreign_key with
        | none => Json.null
        | some (tn, cn) => Json.arr [Json.str tn, Json.str cn]),
      ("check_constraint",
        match c.check_constraint with
        | none => Json.null
        | some cc => encodeConstraint cc) ]

/-- Deserialization of the `foreign_key` field. -/
def decodeForeignKey : Json → Option (Option (String × String))
  | Json.null => some none
  | Json.arr [Json.str tn, Json.str cn] => some (some (tn, cn))
  | _ => none

/-- Deserialization of the `check_constraint` field. -/
def decodeCheckConstraint : Json → Option (Option SQLCheckConstraint)
  | Json.null => some none
  | j => (decodeConstraint j).map some

/-- Deserialization of `SQLColumn`. -/
def decodeColumn : Json → Option SQLColumn
  | Json.obj
      [ ("name", Json.str name),
        ("sql_type", jt),
        ("primary_key", Json.bool primary_key),
        ("nullable", Json.bool nullable),
        ("foreign_key", jf),
        ("check_constraint", jc) ] => do
    let sql_type ← decodeType jt
    let foreign_key ← decodeForeignKey jf
    let check_constraint ← decodeCheckConstraint jc
    some (SQLColumn.mk name sql_type primary_key nullable foreign_key check_constraint)
  | _ => none

/-- Serialization of `SQLTable`. -/
def encodeTable (t : SQLTable) : Json :=
  Json.obj
    [ ("name", Json.str t.name),
      ("columns", Json.arr (t.columns.map encodeColumn)) ]

/-- Deserialization of `SQLTable`. -/
def decodeTable : Json → Option SQLTable
  | Json.obj [("name", Json.str name), ("columns", Json.arr jcols)] =>
    (jcols.mapM decodeColumn).map (fun columns => SQLTable.mk name columns)
  | _ => none

/-- Serialization of `SQLTableCollection`. -/
def encodeCollection (c : SQLTableCollection) : Json :=
  Json.obj [("tables", Json.arr (c.tables.map encodeTable))]

/-- Deserialization of `SQLTableCollection`. -/
def decodeCollection : Json → Option SQLTableCollection
  | Json.obj [("tables", Json.arr jtables)] =>
    (jtables.mapM decodeTable).map SQLTableCollection.mk
  | _ => none

/-- The two-table mutual foreign-key cycle of claim C2: table `a`'s only
column is a foreign key into table `b` and vice versa. -/
def cycleTables : List SQLTable :=
  [SQLTable.mk "a" [SQLColumn.mk "x" SQLType.Int false false (some ("b", "y")) none],
   SQLTable.mk "b" [SQLColumn.mk "y" SQLType.Int false false (some ("a", "x")) none]]

/-- The chained foreign keys of claim C1: `a.x → b.y`, `b.y → c.z`, and
`c.z` a plain column. -/
def chainTables : List SQLTable :=
  [SQLTable.mk "a" [SQLColumn.mk "x" SQLType.Int false false (some ("b", "y")) none],
   SQLTable.mk "b" [SQLColumn.mk "y" SQLType.Int false false (some ("c", "z")) none],
   SQLTable.mk "c" [SQLColumn.mk "z" SQLType.Int false false none none]]

/-! ## Spec-side characterizations used by the claim statements -/

/-- Join with `", "` between the pieces: the inverse shape of
`splitCommaSpace`. -/
def joinCommaSpace : List (List Char) → List Char
  | [] => []
  | [p] => p
  | p :: ps => p ++ ',' :: ' ' :: joinCommaSpace ps

/-- Modelled from the spec (claim C4): the body shape
`in (<comma-space-separated 'quoted' items>)` for a given item list. -/
def renderOneOf (options : List String) : String :=
  String.mk ('i' :: 'n' :: ' ' :: '(' ::
    (joinCommaSpace (options.map (fun v => '\'' :: (v.toList ++ ['\'']))) ++ [')']))

/-- All constraints of all classes of all packages of all models, in scan
order (claim C5). -/
def allConstraints (models : List UMLModel) : List UMLConstraint :=
  models.flatMap (fun model =>
    model.packages.flatMap (fun package =>
      package.classess.flatMap (fun cls => cls.constraints)))

/-- Modelled from the spec (claim C5): the first constraint in the global
scan order whose `property_name` equals the searched name and that has a
body, with that body parsed. -/
def globalConstraintSearch (models : List UMLModel) (property_name : String) :
    Option SQLCheckConstraint :=
  ((allConstraints models).find?
      (fun c => c.property_name == some property_name && c.body.isSome)).map
    (fun c => parse_check_constraint (c.body.getD ""))

/-- The precondition of claim C10: every foreign-key pair names a table
present in the input slice (witnessed by the scan's first match, which is
the table the code consults) and a column present in that table. -/
def fkResolvable (tables : List SQLTable) : Prop :=
  ∀ table ∈ tables, ∀ column ∈ table.columns, ∀ tn cn,
    column.foreign_key = some (tn, cn) →
    ∃ ftable, tables.find? (fun tb => tb.name == tn) = some ftable ∧
      ∃ fcolumn ∈ ftable.columns, fcolumn.name = cn

/-! ## Lemmas about the check-constraint parse -/

theorem splitCommaSpace_ne_nil (cs : List Char) : splitCommaSpace cs ≠ [] := by
  induction cs using splitCommaSpace.induct with
  | case1 => simp [splitCommaSpace]
  | case2 rest ih => simp [splitCommaSpace]
  | case3 => simp_all
  | case4 => simp_all [splitCommaSpace]

theorem joinCommaSpace_cons (p q : List Char) (ps : List (List Char)) :
    joinCommaSpace (p :: q :: ps) = p ++ ',' :: ' ' :: joinCommaSpace (q :: ps) := rfl

theorem joinCommaSpace_splitCommaSpace (cs : List Char) :
    joinCommaSpace (splitCommaSpace cs) = cs := by
  induction cs using splitCommaSpace.induct with
  | case1 => rfl
  | case2 rest ih =>
    obtain ⟨q, ps, hq⟩ := List.exists_cons_of_ne_nil (splitCommaSpace_ne_nil rest)
    rw [splitCommaSpace, hq, joinCommaSpace_cons, ← hq, ih]
    rfl
  | case3 => exact absurd ‹splitCommaSpace _ = []› (splitCommaSpace_ne_nil _)
  | case4 c rest h p ps hsplit ih =>
    rw [splitCommaSpace, hsplit]
    · rw [hsplit] at ih
      cases ps with
      | nil =>
        have hp : p = rest := ih
        simp [joinCommaSpace, hp]
      | cons q ps2 =>
        rw [joinCommaSpace_cons]
        rw [joinCommaSpace_cons] at ih
        simpa using ih
    · exact h

theorem partCapture_eq {p cs : List Char} (h : partCapture p = some cs) :
    p = '\'' :: (cs ++ ['\'']) ∧ cs ≠ [] ∧ noNewline cs = true := by
  unfold partCapture at h
  split at h
  · rename_i rest
    split at h
    · rename_i hlast
      split at h
      · simp only [Option.some.injEq] at h
        subst h
        rename_i hcond
        simp only [Bool.and_eq_true, Bool.not_eq_true', List.isEmpty_eq_false] at hcond
        refine ⟨?_, hcond.1, hcond.2⟩
        have hrest := List.dropLast_append_getLast? _ (Option.mem_def.mpr hlast)
        rw [hrest]
      · exact absurd h (by simp)
    · exact absurd h (by simp)
  · exact absurd h (by simp)

theorem outerCapture_eq {s cs : List Char} (h : outerCapture s = some cs) :
    s = 'i' :: 'n' :: ' ' :: '(' :: (cs ++ [')']) ∧ cs ≠ [] ∧ noNewline cs = true := by
  unfold outerCapture at h
  split at h
  · rename_i rest
    split at h
    · rename_i hlast
      split at h
      · simp only [Option.some.injEq] at h
        subst h
        rename_i hcond
        simp only [Bool.and_eq_true, Bool.not_eq_true', List.isEmpty_eq_false] at hcond
        refine ⟨?_, hcond.1, hcond.2⟩
        have hrest := List.dropLast_append_getLast? _ (Option.mem_def.mpr hlast)
        rw [hrest]
      · exact absurd h (by simp)
    · exact absurd h (by simp)
  · exact absurd h (by simp)

theorem mapM_option_forall {α β : Type} {f : α → Option β} :
    ∀ {xs : List α} {ys : List β}, xs.mapM f = some ys →
      List.Forall₂ (fun x y => f x = some y) xs ys := by
  intro xs
  induction xs with
  | nil =>
    intro ys h
    simp only [List.mapM_nil, pure, Option.some.injEq] at h
    subst h
    exact List.Forall₂.nil
  | cons x xs ih =>
    intro ys h
    rw [List.mapM_cons] at h
    cases hfx : f x with
    | none => rw [hfx] at h; simp at h
    | some y =>
      rw [hfx] at h
      cases hrest : xs.mapM f with
      | none => rw [hrest] at h; simp at h
      | some ys2 =>
        rw [hrest] at h
        simp at h
        subst h
        exact List.Forall₂.cons hfx (ih hrest)

theorem mapM_map_some {α β : Type} {dec : β → Option α} {enc : α → β}
    (h : ∀ x, dec (enc x) = some x) :
    ∀ xs : List α, (xs.map enc).mapM dec = some xs := by
  intro xs
  induction xs with
  | nil => rw [List.map_nil, List.mapM_nil]; rfl
  | cons x xs ih => rw [List.map_cons, List.mapM_cons, h x, ih]; rfl

theorem forall₂_eq_map {α β : Type} {g : β → α} :
    ∀ {xs : List α} {ys : List β},
      List.Forall₂ (fun x y => x = g y) xs ys → xs = ys.map g := by
  intro xs ys h
  induction h with
  | nil => rfl
  | cons hxy _ ih => simp [ih, hxy]

theorem forall₂_right_mem {α β : Type} {R : α → β → Prop} :
    ∀ {xs : List α} {ys : List β},
      List.Forall₂ R xs ys → ∀ y ∈ ys, ∃ x, R x y := by
  intro xs ys h
  induction h with
  | nil => intro y hy; cases hy
  | cons hxy _ ih =>
    intro y hy
    rcases List.mem_cons.mp hy with rfl | hy2
    · exact ⟨_, hxy⟩
    · exact ih y hy2

theorem string_mk_toList (s : String) : String.mk s.toList = s := rfl

theorem string_mk_ne_empty {cs : List Char} (h : cs ≠ []) : String.mk cs ≠ "" := by
  intro heq
  exact h (congrArg String.data heq)

theorem try_parse_one_of_eq_oneOf {s : String} {options : List String}
    (h : try_parse_one_of s = some (SQLCheckConstraint.OneOf options)) :
    s = renderOneOf options ∧ options ≠ [] ∧ ∀ v ∈ options, v ≠ "" := by
  unfold try_parse_one_of at h
  cases houter : outerCapture s.toList with
  | none => rw [houter] at h; simp at h
  | some inner =>
    rw [houter] at h
    dsimp only at h
    cases hmap : (splitCommaSpace inner).mapM
        (fun part => (partCapture part).map (fun cs => String.mk cs)) with
    | none => rw [hmap] at h; simp at h
    | some variants =>
      rw [hmap] at h
      simp only [Option.some.injEq, SQLCheckConstraint.OneOf.injEq] at h
      subst h
      obtain ⟨hs, hinner_ne, _⟩ := outerCapture_eq houter
      have hfa := mapM_option_forall hmap
      have hfa2 : List.Forall₂
          (fun part v => part = '\'' :: (v.toList ++ ['\''])) (splitCommaSpace inner) variants := by
        refine List.Forall₂.imp ?_ hfa
        intro part v hpv
        cases hpc : partCapture part with
        | none => rw [hpc] at hpv; simp at hpv
        | some cs =>
          rw [hpc] at hpv
          simp only [Option.map, Option.some.injEq] at hpv
          subst hpv
          exact (partCapture_eq hpc).1
      have hparts : splitCommaSpace inner =
          variants.map (fun v => '\'' :: (v.toList ++ ['\''])) := forall₂_eq_map hfa2
      refine ⟨?_, ?_, ?_⟩
      · have hinner : inner =
            joinCommaSpace (variants.map (fun v => '\'' :: (v.toList ++ ['\'']))) := by
          rw [← hparts, joinCommaSpace_splitCommaSpace]
        cases s with
        | mk data =>
          have : data = 'i' :: 'n' :: ' ' :: '(' :: (inner ++ [')']) := hs
          rw [renderOneOf, ← hinner, ← this]
      · intro hopt
        rw [hopt] at hparts
        simp only [List.map_nil] at hparts
        exact splitCommaSpace_ne_nil inner hparts
      · intro v hv
        obtain ⟨part, hpv⟩ := forall₂_right_mem hfa v hv
        cases hpc : partCapture part with
        | none => rw [hpc] at hpv; simp at hpv
        | some cs =>
          rw [hpc] at hpv
          simp only [Option.map, Option.some.injEq] at hpv
          subst hpv
          exact string_mk_ne_empty (partCapture_eq hpc).2.1

/-! ## Claim theorems -/

/-- Claim C4: `parse_check_constraint` maps `"in ('x', 'y')"` to
`OneOf ["x", "y"]` and `"some other SQL"` to `Freeform "some other SQL"`;
in general every `OneOf` result comes from a body of the exact shape
`in (<comma-space-separated 'quoted' items>)` with the unquoted items in
order, and every body rejected by that pattern becomes `Freeform` of the
unchanged body string. -/
theorem parse_check_constraint_correct :
    parse_check_constraint "in ('x', 'y')" = SQLCheckConstraint.OneOf ["x", "y"] ∧
    parse_check_constraint "some other SQL" =
      SQLCheckConstraint.Freeform "some other SQL" ∧
    (∀ s options, parse_check_constraint s = SQLCheckConstraint.OneOf options →
      s = renderOneOf options) ∧
    (∀ s, try_parse_one_of s = none →
      parse_check_constraint s = SQLCheckConstraint.Freeform s) := by
  refine ⟨by decide, by decide, ?_, ?_⟩
  · intro s options h
    unfold parse_check_constraint at h
    cases ht : try_parse_one_of s with
    | none => rw [ht] at h; simp at h
    | some c =>
      rw [ht] at h
      simp only [Option.getD_some] at h
      subst h
      exact (try_parse_one_of_eq_oneOf ht).1
  · intro s h
    unfold parse_check_constraint
    rw [h]
    rfl

/-- Witness for C4: concrete instantiations of the two conditional parts. -/
theorem parse_check_constraint_correct_witness :
    ("in ('a', 'b')" : String) = renderOneOf ["a", "b"] ∧
    parse_check_constraint "select 1" = SQLCheckConstraint.Freeform "select 1" :=
  ⟨parse_check_constraint_correct.2.2.1 "in ('a', 'b')" ["a", "b"] (by decide),
   parse_check_constraint_correct.2.2.2 "select 1" (by decide)⟩

/-- Claim C9: every `OneOf` produced by `parse_check_constraint` has a
non-empty option list whose options are all non-empty strings, and a
`RandomEnum` strategy that `generate_string_guess` derives from a parsed
check constraint never has an empty option list, so the random pick inside
`generate_value` (`choose(..).unwrap()`) cannot fail for it. -/
theorem parse_check_constraint_oneOf_nonempty :
    (∀ s options, parse_check_constraint s = SQLCheckConstraint.OneOf options →
      options ≠ [] ∧ ∀ v ∈ options, v ≠ "") ∧
    (∀ (col : SQLColumn) (s : String) (options : List String)
        (o : FakeOracle) (max_size : Nat),
      col.check_constraint = some (parse_check_constraint s) →
      generate_string_guess col = SQLStringValueGuess.RandomEnum options →
      (rawStringValue o max_size (SQLStringValueGuess.RandomEnum options)).isSome = true) := by
  have main : ∀ s options,
      parse_check_constraint s = SQLCheckConstraint.OneOf options →
      options ≠ [] ∧ ∀ v ∈ options, v ≠ "" := by
    intro s options h
    unfold parse_check_constraint at h
    cases ht : try_parse_one_of s with
    | none => rw [ht] at h; simp at h
    | some c =>
      rw [ht] at h
      simp only [Option.getD_some] at h
      subst h
      exact ⟨(try_parse_one_of_eq_oneOf ht).2.1, (try_parse_one_of_eq_oneOf ht).2.2⟩
  refine ⟨main, ?_⟩
  intro col s options o max_size hc hg
  unfold generate_string_guess at hg
  rw [hc] at hg
  cases hp : parse_check_constraint s with
  | OneOf opts =>
    rw [hp] at hg
    simp only [SQLStringValueGuess.RandomEnum.injEq] at hg
    subst hg
    have hne := (main s opts hp).1
    dsimp only [rawStringValue]
    rw [if_neg (by simpa [List.isEmpty_iff] using hne)]
    rfl
  | Freeform body =>
    rw [hp] at hg
    simp at hg

/-- Witness for C9: both parts applied at a concrete parsed constraint. -/
theorem parse_check_constraint_oneOf_nonempty_witness :
    ((["a"] : List String) ≠ [] ∧ ∀ v ∈ (["a"] : List String), v ≠ "") ∧
    (rawStringValue
        (FakeOracle.mk [] "" "" "" "" "" "" "" "" "" 0) 5
        (SQLStringValueGuess.RandomEnum ["a"])).isSome = true :=
  ⟨parse_check_constraint_oneOf_nonempty.1 "in ('a')" ["a"] (by decide),
   parse_check_constraint_oneOf_nonempty.2
     (SQLColumn.mk "c" (SQLType.Varchar 5) false false none
       (some (parse_check_constraint "in ('a')")))
     "in ('a')" ["a"] (FakeOracle.mk [] "" "" "" "" "" "" "" "" "" 0) 5
     rfl (by decide)⟩

/-- Claim C6: for an `Int` column `generate_guess` returns `AutoIncrement`
exactly when `primary_key` is set and `Range(0, 100)` otherwise, so a
primary-key `Int` column never gets a `Range` strategy. -/
theorem generate_guess_int (name : String) (pk nullable : Bool)
    (fk : Option (String × String)) (cc : Option SQLCheckConstraint) :
    generate_guess (SQLColumn.mk name SQLType.Int pk nullable fk cc) =
      SQLValueGuess.Int
        (cond pk SQLIntValueGuess.AutoIncrement (SQLIntValueGuess.Range 0 100)) := by
  cases pk <;> rfl

/-- Claim C7: every value the `String` arm of `generate_value` produces is
the raw faker string truncated to `max_size` and wrapped in single quotes,
so the value with its quotes removed has length at most `max_size`. -/
theorem generate_value_string_length (o : FakeOracle) (max_size : Nat)
    (string_guess : SQLStringValueGuess) (v : String)
    (h : generate_value_string o max_size string_guess = some v) :
    ∃ core : String, v = "'" ++ core ++ "'" ∧ core.length ≤ max_size := by
  unfold generate_value_string at h
  cases hr : rawStringValue o max_size string_guess with
  | none => rw [hr] at h; simp at h
  | some str =>
    rw [hr] at h
    simp only [Option.map, Option.some.injEq] at h
    subst h
    refine ⟨truncate str max_size, rfl, ?_⟩
    show (str.toList.take max_size).length ≤ max_size
    rw [List.length_take]
    exact Nat.min_le_left _ _

/-- Witness for C7: the empty-string strategy at size 5. -/
theorem generate_value_string_length_witness :
    ∃ core : String, ("''" : String) = "'" ++ core ++ "'" ∧ core.length ≤ 5 :=
  generate_value_string_length
    (FakeOracle.mk [] "" "" "" "" "" "" "" "" "" 0) 5
    SQLStringValueGuess.Empty "''" (by decide)

/-- Counterexample to claim C3: a present but malformed type-size modifier
(text `"abc"`) makes `get_sql_type` fail with the format error instead of
falling back to the `Char(31)` default, so the claimed "missing OR
malformed never fails" behavior does not hold. -/
theorem get_sql_type_malformed_fails :
    get_sql_type [UMLModifier.Type (UMLTypeModifier.mk "p" "abc")]
      SQLTypeName.Char "p" = Except.error SQLTypeError.modifierFormat := by rfl

/-- Claim C3 (amended): for `Char`/`Varchar`, a MISSING type-size modifier
falls back to the fixed defaults `Char(31)` / `Varchar(255)`; a present
modifier must match `(<digits>)` with the digits inside the size type's
range, in which case the parsed size is used, and a present but malformed
modifier is an error, not a fallback. -/
theorem get_sql_type_size_defaults :
    (∀ modifiers property, get_type_modifier modifiers property = none →
      get_sql_type modifiers SQLTypeName.Char property =
        Except.ok (SQLType.Char 31) ∧
      get_sql_type modifiers SQLTypeName.Varchar property =
        Except.ok (SQLType.Varchar 255)) ∧
    (∀ modifiers property tm, get_type_modifier modifiers property = some tm →
      (sizeCapture tm.toList = none →
        get_sql_type modifiers SQLTypeName.Char property =
          Except.error SQLTypeError.modifierFormat ∧
        get_sql_type modifiers SQLTypeName.Varchar property =
          Except.error SQLTypeError.modifierFormat) ∧
      (∀ digits, sizeCapture tm.toList = some digits →
        (digitsVal digits ≤ 255 →
          get_sql_type modifiers SQLTypeName.Char property =
            Except.ok (SQLType.Char (digitsVal digits))) ∧
        (digitsVal digits ≤ 65535 →
          get_sql_type modifiers SQLTypeName.Varchar property =
            Except.ok (SQLType.Varchar (digitsVal digits))) ∧
        (255 < digitsVal digits →
          get_sql_type modifiers SQLTypeName.Char property =
            Except.error SQLTypeError.sizeParse) ∧
        (65535 < digitsVal digits →
          get_sql_type modifiers SQLTypeName.Varchar property =
            Except.error SQLTypeError.sizeParse))) := by
  constructor
  · intro modifiers property h
    constructor <;> (unfold get_sql_type; rw [h])
  · intro modifiers property tm h
    constructor
    · intro hcap
      constructor <;>
        (unfold get_sql_type; rw [h]; dsimp only; unfold parseSizeModifier;
          rw [hcap]; rfl)
    · intro digits hcap
      refine ⟨?_, ?_, ?_, ?_⟩
      · intro hle
        unfold get_sql_type
        rw [h]
        dsimp only
        unfold parseSizeModifier
        rw [hcap]
        dsimp only
        rw [if_pos hle]
        rfl
      · intro hle
        unfold get_sql_type
        rw [h]
        dsimp only
        unfold parseSizeModifier
        rw [hcap]
        dsimp only
        rw [if_pos hle]
        rfl
      · intro hgt
        unfold get_sql_type
        rw [h]
        dsimp only
        unfold parseSizeModifier
        rw [hcap]
        dsimp only
        rw [if_neg (by omega)]
        rfl
      · intro hgt
        unfold get_sql_type
        rw [h]
        dsimp only
        unfold parseSizeModifier
        rw [hcap]
        dsimp only
        rw [if_neg (by omega)]
        rfl

/-- Witness for C3 (amended): the fallback with no modifier fact, the
parsed size for the well-formed modifier `"(12)"`, and the overflow error
for `"(300)"` on a char column. -/
theorem get_sql_type_size_defaults_witness :
    (get_sql_type [] SQLTypeName.Char "p" = Except.ok (SQLType.Char 31) ∧
     get_sql_type [] SQLTypeName.Varchar "p" = Except.ok (SQLType.Varchar 255)) ∧
    get_sql_type [UMLModifier.Type (UMLTypeModifier.mk "p" "(12)")]
      SQLTypeName.Char "p" = Except.ok (SQLType.Char 12) ∧
    get_sql_type [UMLModifier.Type (UMLTypeModifier.mk "p" "(300)")]
      SQLTypeName.Char "p" = Except.error SQLTypeError.sizeParse :=
  ⟨get_sql_type_size_defaults.1 [] "p" rfl,
   (((get_sql_type_size_defaults.2 [UMLModifier.Type (UMLTypeModifier.mk "p" "(12)")]
      "p" "(12)" rfl).2 ['1', '2'] rfl).1 (by decide)),
   (((get_sql_type_size_defaults.2 [UMLModifier.Type (UMLTypeModifier.mk "p" "(300)")]
      "p" "(300)" rfl).2 ['3', '0', '0'] rfl).2.2.1 (by decide))⟩

theorem firstSome_cons {α β : Type} (f : α → Option β) (x : α) (xs : List α) :
    firstSome f (x :: xs) =
      match f x with
      | some b => some b
      | none => firstSome f xs := rfl

theorem firstSome_append {α β : Type} (f : α → Option β) (xs ys : List α) :
    firstSome f (xs ++ ys) =
      match firstSome f xs with
      | some b => some b
      | none => firstSome f ys := by
  induction xs with
  | nil => rfl
  | cons x xs ih =>
    rw [List.cons_append, firstSome_cons f x (xs ++ ys), firstSome_cons f x xs]
    cases f x with
    | some b => rfl
    | none => exact ih

theorem firstSome_flatMap {α β γ : Type} (g : β → Option γ) (f : α → List β)
    (l : List α) :
    firstSome g (l.flatMap f) = firstSome (fun a => firstSome g (f a)) l := by
  induction l with
  | nil => rfl
  | cons x xs ih =>
    rw [List.flatMap_cons, firstSome_append,
      firstSome_cons (fun a => firstSome g (f a)) x xs]
    cases firstSome g (f x) with
    | some c => rfl
    | none => exact ih

theorem firstSome_constraintHit (pn : String) (cs : List UMLConstraint) :
    firstSome (constraintHit pn) cs =
      (cs.find? (fun c => c.property_name == some pn && c.body.isSome)).map
        (fun c => parse_check_constraint (c.body.getD "")) := by
  induction cs with
  | nil => rfl
  | cons c cs ih =>
    rw [firstSome_cons, List.find?_cons]
    cases hname : c.property_name with
    | none =>
      have h1 : constraintHit pn c = none := by
        unfold constraintHit
        rw [hname]
      rw [h1]
      have h2 : ((none : Option String) == some pn && c.body.isSome) = false := rfl
      rw [h2]
      exact ih
    | some n =>
      cases hbody : c.body with
      | none =>
        have h1 : constraintHit pn c = none := by
          unfold constraintHit
          rw [hname, hbody]
        rw [h1]
        have h2 : (some n == some pn && (none : Option String).isSome) = false := by
          simp
        rw [h2]
        exact ih
      | some b =>
        by_cases hn : n = pn
        · have h1 : constraintHit pn c = some (parse_check_constraint b) := by
            unfold constraintHit
            rw [hname, hbody]
            simp [hn]
          rw [h1]
          have h2 : (some n == some pn && (some b : Option String).isSome) = true := by
            simp [hn]
          rw [h2]
          simp [hbody]
        · have h1 : constraintHit pn c = none := by
            unfold constraintHit
            rw [hname, hbody]
            simp [hn]
          rw [h1]
          have h2 : (some n == some pn && (some b : Option String).isSome) = false := by
            simp [hn]
          rw [h2]
          exact ih

/-- Claim C5: `get_sql_check_constraint` equals the global name-keyed
search: scan the constraints of all classes of all packages of all models
in order and take the first whose `property_name` equals the column name
and that has a body; the lookup takes only the models and the name, never
the owning class, so equally named properties anywhere resolve to the same
constraint. -/
theorem get_sql_check_constraint_global (models : List UMLModel)
    (property_name : String) :
    get_sql_check_constraint models property_name =
      globalConstraintSearch models property_name := by
  have h1 : firstSome (constraintHit property_name) (allConstraints models) =
      get_sql_check_constraint models property_name := by
    unfold allConstraints get_sql_check_constraint
    rw [firstSome_flatMap]
    congr 1
    funext model
    rw [firstSome_flatMap]
    congr 1
    funext package
    rw [firstSome_flatMap]
  rw [← h1, firstSome_constraintHit]
  rfl

theorem decodeType_encodeType (t : SQLType) : decodeType (encodeType t) = some t := by
  cases t <;> rfl

theorem decodeConstraint_encodeConstraint (cc : SQLCheckConstraint) :
    decodeConstraint (encodeConstraint cc) = some cc := by
  cases cc with
  | OneOf options =>
    show Option.map SQLCheckConstraint.OneOf ((options.map Json.str).mapM decodeStr) =
      some (SQLCheckConstraint.OneOf options)
    rw [@mapM_map_some String Json decodeStr Json.str (fun s => rfl) options]
    rfl
  | Freeform body => rfl

theorem decodeCheckConstraint_encode (cc : SQLCheckConstraint) :
    decodeCheckConstraint (encodeConstraint cc) = some (some cc) := by
  have h : decodeCheckConstraint (encodeConstraint cc) =
      Option.map some (decodeConstraint (encodeConstraint cc)) := by
    cases cc <;> rfl
  rw [h, decodeConstraint_encodeConstraint]
  rfl

theorem decodeColumn_encodeColumn (c : SQLColumn) :
    decodeColumn (encodeColumn c) = some c := by
  obtain ⟨name, sql_type, primary_key, nullable, foreign_key, check_constraint⟩ := c
  cases foreign_key with
  | none =>
    cases check_constraint with
    | none =>
      simp [encodeColumn, decodeColumn, decodeType_encodeType, decodeForeignKey,
        decodeCheckConstraint]
    | some cc =>
      simp [encodeColumn, decodeColumn, decodeType_encodeType, decodeForeignKey,
        decodeCheckConstraint_encode]
  | some pair =>
    obtain ⟨tn, cn⟩ := pair
    cases check_constraint with
    | none =>
      simp [encodeColumn, decodeColumn, decodeType_encodeType, decodeForeignKey,
        decodeCheckConstraint]
    | some cc =>
      simp [encodeColumn, decodeColumn, decodeType_encodeType, decodeForeignKey,
        decodeCheckConstraint_encode]

theorem decodeTable_encodeTable (t : SQLTable) :
    decodeTable (encodeTable t) = some t := by
  obtain ⟨name, columns⟩ := t
  show Option.map (fun columns => SQLTable.mk name columns)
      ((columns.map encodeColumn).mapM decodeColumn) = some (SQLTable.mk name columns)
  rw [@mapM_map_some SQLColumn Json decodeColumn encodeColumn
    decodeColumn_encodeColumn columns]
  rfl

/-- Claim C8: serializing a `SQLTableCollection` to its persisted JSON form
and deserializing the result yields the original collection, for every
collection (all table names, column orders, types, key flags, foreign keys
and check constraints survive the round trip). -/
theorem decodeCollection_encodeCollection (c : SQLTableCollection) :
    decodeCollection (encodeCollection c) = some c := by
  obtain ⟨tables⟩ := c
  show Option.map SQLTableCollection.mk
      ((tables.map encodeTable).mapM decodeTable) = some (SQLTableCollection.mk tables)
  rw [@mapM_map_some SQLTable Json decodeTable encodeTable
    decodeTable_encodeTable tables]
  rfl

theorem findIdxBy_some {α : Type} {p : α → Bool} :
    ∀ {xs : List α} {i : Nat} {x : α},
      findIdxBy p xs = some (i, x) → x ∈ xs ∧ p x = true := by
  intro xs
  induction xs with
  | nil => intro i x h; simp [findIdxBy] at h
  | cons y ys ih =>
    intro i x h
    unfold findIdxBy at h
    split at h
    · simp only [Option.some.injEq, Prod.mk.injEq] at h
      rcases h with ⟨-, rfl⟩
      exact ⟨List.mem_cons_self y ys, by assumption⟩
    · cases hf : findIdxBy p ys with
      | none => rw [hf] at h; simp at h
      | some q =>
        rw [hf] at h
        simp only [Option.map, Option.some.injEq, Prod.mk.injEq] at h
        rcases h with ⟨-, rfl⟩
        obtain ⟨hmem, hp⟩ := ih hf
        exact ⟨List.mem_cons_of_mem y hmem, hp⟩

theorem findIdxBy_isSome {α : Type} {p : α → Bool} :
    ∀ {xs : List α}, (∃ x ∈ xs, p x = true) → (findIdxBy p xs).isSome = true := by
  intro xs
  induction xs with
  | nil => rintro ⟨x, hx, -⟩; cases hx
  | cons y ys ih =>
    rintro ⟨x, hx, hp⟩
    unfold findIdxBy
    by_cases hy : p y = true
    · rw [if_pos hy]; rfl
    · rw [if_neg hy]
      rcases List.mem_cons.mp hx with rfl | hx2
      · exact absurd hp hy
      · have hs := ih ⟨x, hx2, hp⟩
        cases hf : findIdxBy p ys with
        | none => rw [hf] at hs; simp at hs
        | some q => rfl

theorem findIdxBy_map_snd {α : Type} (p : α → Bool) :
    ∀ xs : List α, (findIdxBy p xs).map Prod.snd = xs.find? p := by
  intro xs
  induction xs with
  | nil => rfl
  | cons y ys ih =>
    unfold findIdxBy
    rw [List.find?_cons]
    cases hy : p y with
    | true => rfl
    | false =>
      simp only [Bool.false_eq_true, if_false, Option.map_map]
      exact ih

theorem mapM_except_ok {ε α β : Type} {f : α → Except ε β} :
    ∀ {xs : List α},
      (∃ ys, xs.mapM f = Except.ok ys) ↔ (∀ x ∈ xs, ∃ y, f x = Except.ok y) := by
  intro xs
  induction xs with
  | nil =>
    constructor
    · intro _ x hx; cases hx
    · intro _; exact ⟨[], rfl⟩
  | cons x xs ih =>
    rw [List.mapM_cons]
    constructor
    · rintro ⟨ys, hys⟩
      cases hfx : f x with
      | error e =>
        rw [hfx] at hys
        have h2 : (Except.error e : Except ε (List β)) = Except.ok ys := hys
        cases h2
      | ok y =>
        rw [hfx] at hys
        cases hrest : xs.mapM f with
        | error e =>
          rw [hrest] at hys
          have h2 : (Except.error e : Except ε (List β)) = Except.ok ys := hys
          cases h2
        | ok ys2 =>
          intro z hz
          rcases List.mem_cons.mp hz with rfl | hz2
          · exact ⟨y, hfx⟩
          · exact ih.mp ⟨ys2, hrest⟩ z hz2
    · intro hall
      obtain ⟨y, hy⟩ := hall x (List.mem_cons_self x xs)
      obtain ⟨ys, hys⟩ := ih.mpr (fun z hz => hall z (List.mem_cons_of_mem x hz))
      refine ⟨y :: ys, ?_⟩
      rw [hy, hys]
      rfl

theorem mapM_except_error {ε α β : Type} {f : α → Except ε β} :
    ∀ {xs : List α} {e : ε},
      xs.mapM f = Except.error e → ∃ x ∈ xs, f x = Except.error e := by
  intro xs
  induction xs with
  | nil =>
    intro e h
    have h2 : (Except.ok [] : Except ε (List β)) = Except.error e := h
    cases h2
  | cons x xs ih =>
    intro e h
    rw [List.mapM_cons] at h
    cases hfx : f x with
    | error e2 =>
      rw [hfx] at h
      have h2 : (Except.error e2 : Except ε (List β)) = Except.error e := h
      injection h2 with he
      subst he
      exact ⟨x, List.mem_cons_self x xs, hfx⟩
    | ok y =>
      rw [hfx] at h
      cases hrest : xs.mapM f with
      | error e2 =>
        rw [hrest] at h
        have h2 : (Except.error e2 : Except ε (List β)) = Except.error e := h
        injection h2 with he
        subst he
        obtain ⟨z, hz, hfz⟩ := ih hrest
        exact ⟨z, List.mem_cons_of_mem x hz, hfz⟩
      | ok ys =>
        rw [hrest] at h
        have h2 : (Except.ok (y :: ys) : Except ε (List β)) = Except.error e := h
        cases h2

theorem foreignColumnsOf_ok_iff (tables : List SQLTable) :
    ∀ (columns : List SQLColumn) (i : Nat),
      (∃ fcs, foreignColumnsOf tables columns i = Except.ok fcs) ↔
        (∀ column ∈ columns, ∀ tn cn, column.foreign_key = some (tn, cn) →
          ∃ ftable, tables.find? (fun tb => tb.name == tn) = some ftable ∧
            ∃ fcolumn ∈ ftable.columns, fcolumn.name = cn) := by
  intro columns
  induction columns with
  | nil =>
    intro i
    constructor
    · intro _ column hc
      cases hc
    · intro _
      exact ⟨[], rfl⟩
  | cons column rest ih =>
    intro i
    constructor
    · rintro ⟨fcs, hok⟩ col hcol tn cn hfk
      unfold foreignColumnsOf at hok
      rcases List.mem_cons.mp hcol with rfl | hmem
      · rw [hfk] at hok
        dsimp only at hok
        cases hft : findIdxBy (fun tb => tb.name == tn) tables with
        | none =>
          rw [hft] at hok
          cases hok
        | some q =>
          obtain ⟨ti, ftable⟩ := q
          rw [hft] at hok
          dsimp only at hok
          cases hfc : findIdxBy (fun c2 => c2.name == cn) ftable.columns with
          | none =>
            rw [hfc] at hok
            cases hok
          | some q2 =>
            refine ⟨ftable, ?_, ?_⟩
            · rw [← findIdxBy_map_snd, hft]
              rfl
            · obtain ⟨ci, fcol⟩ := q2
              obtain ⟨hmem2, hp2⟩ := findIdxBy_some hfc
              exact ⟨fcol, hmem2, by simpa using hp2⟩
      · cases hfk0 : column.foreign_key with
        | none =>
          rw [hfk0] at hok
          dsimp only at hok
          exact (ih (i + 1)).mp ⟨fcs, hok⟩ col hmem tn cn hfk
        | some pair =>
          obtain ⟨tn0, cn0⟩ := pair
          rw [hfk0] at hok
          dsimp only at hok
          cases hft : findIdxBy (fun tb => tb.name == tn0) tables with
          | none =>
            rw [hft] at hok
            cases hok
          | some q =>
            obtain ⟨ti, ft⟩ := q
            rw [hft] at hok
            dsimp only at hok
            cases hfc : findIdxBy (fun c2 => c2.name == cn0) ft.columns with
            | none =>
              rw [hfc] at hok
              cases hok
            | some q2 =>
              obtain ⟨ci, fc⟩ := q2
              rw [hfc] at hok
              dsimp only at hok
              cases hrest : foreignColumnsOf tables rest (i + 1) with
              | error e =>
                rw [hrest] at hok
                have h2 : (Except.error e :
                    Except String (List (Nat × Nat × Nat))) = Except.ok fcs := hok
                cases h2
              | ok fcs2 =>
                exact (ih (i + 1)).mp ⟨fcs2, hrest⟩ col hmem tn cn hfk
    · intro hall
      unfold foreignColumnsOf
      cases hfk0 : column.foreign_key with
      | none =>
        exact (ih (i + 1)).mpr
          (fun col hc tn cn hfk => hall col (List.mem_cons_of_mem column hc) tn cn hfk)
      | some pair =>
        obtain ⟨tn, cn⟩ := pair
        dsimp only
        obtain ⟨ftable, hfind, fcol, hfcmem, hfcname⟩ :=
          hall column (List.mem_cons_self column rest) tn cn hfk0
        have hmap := findIdxBy_map_snd (fun tb => tb.name == tn) tables
        rw [hfind] at hmap
        cases hft : findIdxBy (fun tb => tb.name == tn) tables with
        | none =>
          rw [hft] at hmap
          have h2 : (none : Option SQLTable) = some ftable := hmap
          cases h2
        | some q =>
          obtain ⟨ti, ft2⟩ := q
          rw [hft] at hmap
          have hft2 : ft2 = ftable := by simpa using hmap
          subst hft2
          have hcs : (findIdxBy (fun c2 => c2.name == cn) ft2.columns).isSome = true :=
            findIdxBy_isSome ⟨fcol, hfcmem, by simp [hfcname]⟩
          cases hfc : findIdxBy (fun c2 => c2.name == cn) ft2.columns with
          | none =>
            rw [hfc] at hcs
            simp at hcs
          | some q2 =>
            obtain ⟨ci, fc2⟩ := q2
            obtain ⟨fcs, hrest⟩ := (ih (i + 1)).mpr
              (fun col hc tn2 cn2 hfk => hall col (List.mem_cons_of_mem column hc) tn2 cn2 hfk)
            refine ⟨(i, ti, ci) :: fcs, ?_⟩
            dsimp only
            rw [hfc]
            dsimp only
            rw [hrest]
            rfl

theorem foreignColumnsOf_error (tables : List SQLTable) :
    ∀ (columns : List SQLColumn) (i : Nat) (e : String),
      foreignColumnsOf tables columns i = Except.error e →
      e = "Foreign table not found" ∨ e = "Foreign column not found" := by
  intro columns
  induction columns with
  | nil =>
    intro i e h
    have h2 : (Except.ok [] :
        Except String (List (Nat × Nat × Nat))) = Except.error e := h
    cases h2
  | cons column rest ih =>
    intro i e h
    unfold foreignColumnsOf at h
    cases hfk : column.foreign_key with
    | none =>
      rw [hfk] at h
      dsimp only at h
      exact ih (i + 1) e h
    | some pair =>
      obtain ⟨tn, cn⟩ := pair
      rw [hfk] at h
      dsimp only at h
      cases hft : findIdxBy (fun tb => tb.name == tn) tables with
      | none =>
        rw [hft] at h
        dsimp only at h
        injection h with he
        exact Or.inl he.symm
      | some q =>
        obtain ⟨ti, ft⟩ := q
        rw [hft] at h
        dsimp only at h
        cases hfc : findIdxBy (fun c2 => c2.name == cn) ft.columns with
        | none =>
          rw [hfc] at h
          dsimp only at h
          injection h with he
          exact Or.inr he.symm
        | some q2 =>
          obtain ⟨ci, fc⟩ := q2
          rw [hfc] at h
          dsimp only at h
          cases hrest : foreignColumnsOf tables rest (i + 1) with
          | error e2 =>
            rw [hrest] at h
            have h2 : (Except.error e2 :
                Except String (List (Nat × Nat × Nat))) = Except.error e := h
            injection h2 with he
            subst he
            exact ih (i + 1) e2 hrest
          | ok fcs =>
            rw [hrest] at h
            have h2 : (Except.ok ((i, ti, ci) :: fcs) :
                Except String (List (Nat × Nat × Nat))) = Except.error e := h
            cases h2

/-- Claim C10: the `all_foreign_columns` setup of `generate_fake_entries`
succeeds exactly when every column's `foreign_key` pair names a table of
the input slice (the scan's first match by name) holding a column of the
named name; when that precondition fails the function stops at one of the
two `expect` panics (`Foreign table not found` / `Foreign column not
found`) instead of returning a `Result` error, and under the precondition
those panic branches are unreachable. -/
theorem build_foreign_columns_spec (tables : List SQLTable) :
    ((∃ afc, build_foreign_columns tables = Except.ok afc) ↔ fkResolvable tables) ∧
    (∀ e, build_foreign_columns tables = Except.error e →
      e = "Foreign table not found" ∨ e = "Foreign column not found") := by
  constructor
  · unfold build_foreign_columns fkResolvable
    refine Iff.trans mapM_except_ok ?_
    constructor
    · intro hall table htmem column hcmem tn cn hfk
      exact ((foreignColumnsOf_ok_iff tables table.columns 0).mp
        (hall table htmem)) column hcmem tn cn hfk
    · intro hres table htmem
      exact (foreignColumnsOf_ok_iff tables table.columns 0).mpr
        (fun column hc tn cn hfk => hres table htmem column hc tn cn hfk)
  · intro e he
    obtain ⟨table, _, hft⟩ := mapM_except_error he
    exact foreignColumnsOf_error tables table.columns 0 e hft

/-- Witness for C10: the resolvable single-table schema, and the panic
message produced by a dangling foreign-table name. -/
theorem build_foreign_columns_spec_witness :
    fkResolvable
      [SQLTable.mk "t" [SQLColumn.mk "id" SQLType.Int true false none none]] ∧
    ("Foreign table not found" = "Foreign table not found" ∨
      "Foreign table not found" = "Foreign column not found") :=
  ⟨(build_foreign_columns_spec
      [SQLTable.mk "t" [SQLColumn.mk "id" SQLType.Int true false none none]]).1.mp
      ⟨[[]], rfl⟩,
   (build_foreign_columns_spec
      [SQLTable.mk "t"
        [SQLColumn.mk "id" SQLType.Int true false (some ("zz", "id")) none]]).2
      "Foreign table not found" rfl⟩

theorem runPass_length_le (afc : ForeignCols) (copy : List Coord) (pick : Nat → Nat) :
    ∀ (pending : List Coord) (entries : Entries) (k : Nat),
      (runPass afc copy pick pending entries k).2.2.length ≤ pending.length := by
  intro pending
  induction pending with
  | nil => intro entries k; simp [runPass]
  | cons c rest ih =>
    intro entries k
    obtain ⟨t, r⟩ := c
    unfold runPass
    cases hpc : processCols afc copy pick t r (afc.getD t []) entries k with
    | mk e1 p1 =>
      obtain ⟨k1, keep⟩ := p1
      dsimp only
      cases hrp : runPass afc copy pick rest e1 k1 with
      | mk e2 p2 =>
        obtain ⟨k2, kept⟩ := p2
        have hle := ih e1 k1
        rw [hrp] at hle
        dsimp only at hle ⊢
        cases keep
        · simpa using Nat.le_succ_of_le hle
        · simpa using hle

theorem resolveLoop_isSome (afc : ForeignCols) (pick : Nat → Nat) :
    ∀ (fuel : Nat) (pending : List Coord) (entries : Entries) (k : Nat),
      pending.length < fuel →
      (resolveLoop afc pick fuel entries pending k).isSome = true := by
  intro fuel
  induction fuel with
  | zero => intro pending entries k h; exact absurd h (Nat.not_lt_zero _)
  | succ fuel ih =>
    intro pending entries k h
    unfold resolveLoop
    by_cases hemp : pending.isEmpty
    · rw [if_pos hemp]; rfl
    · rw [if_neg hemp]
      cases hrp : runPass afc pending pick pending entries k with
      | mk e1 p1 =>
        obtain ⟨k1, pending1⟩ := p1
        dsimp only
        by_cases hlen : (pending1.length == pending.length) = true
        · rw [if_pos hlen]; rfl
        · rw [if_neg hlen]
          apply ih
          have hle := runPass_length_le afc pending pick pending entries k
          rw [hrp] at hle
          dsimp only at hle
          have hne : pending1.length ≠ pending.length := by simpa using hlen
          omega

theorem resolveLoop_cases (afc : ForeignCols) (pick : Nat → Nat) :
    ∀ (fuel : Nat) (entries : Entries) (pending : List Coord) (k : Nat),
      resolveLoop afc pick fuel entries pending k = none ∨
      (∃ entries2, resolveLoop afc pick fuel entries pending k =
        some (Except.ok entries2)) ∨
      resolveLoop afc pick fuel entries pending k =
        some (Except.error "Failed to resolve foreign keys") := by
  intro fuel
  induction fuel with
  | zero => intro entries pending k; exact Or.inl rfl
  | succ fuel ih =>
    intro entries pending k
    unfold resolveLoop
    by_cases hemp : pending.isEmpty
    · rw [if_pos hemp]
      exact Or.inr (Or.inl ⟨entries, rfl⟩)
    · rw [if_neg hemp]
      cases hrp : runPass afc pending pick pending entries k with
      | mk e1 p1 =>
        obtain ⟨k1, pending1⟩ := p1
        dsimp only
        by_cases hlen : (pending1.length == pending.length) = true
        · rw [if_pos hlen]
          exact Or.inr (Or.inr rfl)
        · rw [if_neg hlen]
          exact ih e1 pending1 k1

/-- Claim C2: the fixed-point loop always terminates with enough fuel for
one pass per pending row plus one (each pass strictly shrinks the pending
list or the loop stops), the stall message is the loop's only error, BUT
the two-table mutual foreign-key cycle does not fail: with one row per
table the loop returns `Ok` after a single pass (for either iteration
order of the pending set and any random stream), assigning both
foreign-key cells the still-blank string, because the candidate pool
keeps exactly the pending rows. -/
theorem resolveLoop_terminates_and_cycle_succeeds :
    (∀ (afc : ForeignCols) (pick : Nat → Nat) (entries : Entries)
        (pending : List Coord) (k : Nat),
      (resolveLoop afc pick (pending.length + 1) entries pending k).isSome = true) ∧
    (∀ (afc : ForeignCols) (pick : Nat → Nat) (fuel : Nat) (entries : Entries)
        (pending : List Coord) (k : Nat),
      resolveLoop afc pick fuel entries pending k = none ∨
      (∃ entries2, resolveLoop afc pick fuel entries pending k =
        some (Except.ok entries2)) ∨
      resolveLoop afc pick fuel entries pending k =
        some (Except.error "Failed to resolve foreign keys")) ∧
    build_foreign_columns cycleTables = Except.ok [[(0, 1, 0)], [(0, 0, 0)]] ∧
    (∀ genVal, initEntries cycleTables genVal 1 = [[[""]], [[""]]]) ∧
    initPending cycleTables 1 = [(0, 0), (1, 0)] ∧
    (∀ pick : Nat → Nat,
      resolveForeignKeys [[(0, 1, 0)], [(0, 0, 0)]] pick [[[""]], [[""]]]
        [(0, 0), (1, 0)] = some (Except.ok [[[""]], [[""]]])) ∧
    (∀ pick : Nat → Nat,
      resolveForeignKeys [[(0, 1, 0)], [(0, 0, 0)]] pick [[[""]], [[""]]]
        [(1, 0), (0, 0)] = some (Except.ok [[[""]], [[""]]])) := by
  refine ⟨?_, ?_, rfl, ?_, rfl, ?_, ?_⟩
  · intro afc pick entries pending k
    exact resolveLoop_isSome afc pick (pending.length + 1) pending entries k
      (Nat.lt_succ_self _)
  · intro afc pick fuel entries pending k
    exact resolveLoop_cases afc pick fuel entries pending k
  · intro genVal
    rfl
  · intro pick
    simp [resolveForeignKeys, resolveLoop, runPass, processCols, availableValues,
      setCell, enumIdx, memCoord, Nat.mod_one]
  · intro pick
    simp [resolveForeignKeys, resolveLoop, runPass, processCols, availableValues,
      setCell, enumIdx, memCoord, Nat.mod_one]

/-- Claim C1: when the target column is itself a foreign-key column of its
own table, the pool `availableValues` computes is the rows PRESENT in the
pending snapshot (the still-blank ones), not the resolved rows the claim
(and the code's own comment) describe: in the chain `a.x → b.y → c.z` with
one row per table, the pool for `a`'s cell is the single still-blank `b`
value `""` while the claimed pool (rows not pending) is empty, and the
first pass assigns that blank string into `a.x` and marks the row
resolved. -/
theorem availableValues_keeps_pending_rows :
    build_foreign_columns chainTables =
      Except.ok [[(0, 1, 0)], [(0, 2, 0)], []] ∧
    initEntries chainTables (fun _ _ _ => "7") 1 = [[[""]], [[""]], [["7"]]] ∧
    initPending chainTables 1 = [(0, 0), (1, 0)] ∧
    availableValues [[(0, 1, 0)], [(0, 2, 0)], []] [(0, 0), (1, 0)]
      [[[""]], [[""]], [["7"]]] 1 0 = [""] ∧
    specAvailableValues [[(0, 1, 0)], [(0, 2, 0)], []] [(0, 0), (1, 0)]
      [[[""]], [[""]], [["7"]]] 1 0 = [] ∧
    (∀ pick : Nat → Nat,
      runPass [[(0, 1, 0)], [(0, 2, 0)], []] [(0, 0), (1, 0)] pick
        [(0, 0), (1, 0)] [[[""]], [[""]], [["7"]]] 0 =
        ([[[""]], [["7"]], [["7"]]], 2, [])) := by
  refine ⟨rfl, rfl, rfl, by decide, by decide, ?_⟩
  intro pick
  simp [runPass, processCols, availableValues, setCell, enumIdx, memCoord,
    Nat.mod_one]
